import Mathlib

/-!
# Verification of the dicom-rs storescp service and text encoding layer

A shallow embedding of the protocol-relevant parts of the repository:

* the DIMSE command response builders of `src/storescp/src/main.rs`
  (`create_cstore_response`, `create_cecho_response`),
* the server accept loops of both execution models
  (`run_sync` / `run_async`) and process startup (`main`),
* the text encoding layer of `src/encoding/src/text.rs`
  (`SpecificCharacterSet`, `decode_text_trap`, the character-set codecs,
  and the value-representation validators).

Rust byte values are modelled as `Nat` (all concrete values are < 256,
and where overflow could matter it is taken modulo the width explicitly),
Rust `String`s as `List Char`, and fallible operations as `Except`.
-/

namespace Dicom

/-! ## Command messages (data model of `InMemDicomObject` command objects)

A command object built by `InMemDicomObject::command_from_element_iter`
is an ordered sequence of data elements, each a tag, a value
representation, and a value.  Only the two VRs and two value kinds used
by the response builders appear. -/

/-- A DICOM tag: a (group, element) pair of 16-bit numbers. -/
structure Tag where
  group : Nat
  element : Nat
deriving DecidableEq, Repr

/-- The value representations used by the storescp command objects. -/
inductive VR
  | UI
  | US
deriving DecidableEq, Repr

/-- A primitive value of a command element: a string (`Str`) or a list
of unsigned 16-bit words (`U16`). -/
inductive CmdValue
  | Str (s : List Char)
  | U16 (words : List Nat)
deriving DecidableEq, Repr

/-- One data element of a command object. -/
structure DataElement where
  tag : Tag
  vr : VR
  value : CmdValue
deriving DecidableEq, Repr

/-- Standard tag constants from `dicom_dictionary_std::tags` used by
the response builders. -/
def AFFECTED_SOP_CLASS_UID : Tag := ⟨0x0000, 0x0002⟩

def COMMAND_FIELD : Tag := ⟨0x0000, 0x0100⟩

def MESSAGE_ID_BEING_RESPONDED_TO : Tag := ⟨0x0000, 0x0120⟩

def COMMAND_DATA_SET_TYPE : Tag := ⟨0x0000, 0x0800⟩

def STATUS : Tag := ⟨0x0000, 0x0900⟩

def AFFECTED_SOP_INSTANCE_UID : Tag := ⟨0x0000, 0x1000⟩

/-- A command object: the ordered list of its data elements
(as produced by `InMemDicomObject::command_from_element_iter`). -/
def CommandObject := List DataElement

/-- Look up the value held at a tag in a command object
(first occurrence, as element access on the object does). -/
def getValue (obj : CommandObject) (t : Tag) : Option CmdValue :=
  (obj.find? (fun e => e.tag = t)).map (fun e => e.value)

/-- Embedding of `create_cstore_response` from `src/storescp/src/main.rs`:
the C-STORE response command object, element for element in source
order. -/
def create_cstore_response (message_id : Nat)
    (sop_class_uid sop_instance_uid : List Char) : CommandObject :=
  [ ⟨AFFECTED_SOP_CLASS_UID, VR.UI, CmdValue.Str sop_class_uid⟩,
    ⟨COMMAND_FIELD, VR.US, CmdValue.U16 [0x8001]⟩,
    ⟨MESSAGE_ID_BEING_RESPONDED_TO, VR.US, CmdValue.U16 [message_id]⟩,
    ⟨COMMAND_DATA_SET_TYPE, VR.US, CmdValue.U16 [0x0101]⟩,
    ⟨STATUS, VR.US, CmdValue.U16 [0x0000]⟩,
    ⟨AFFECTED_SOP_INSTANCE_UID, VR.UI, CmdValue.Str sop_instance_uid⟩ ]

/-- Embedding of `create_cecho_response` from `src/storescp/src/main.rs`:
the C-ECHO response command object, element for element in source
order.  It takes no session state: the response is a function of the
message id alone. -/
def create_cecho_response (message_id : Nat) : CommandObject :=
  [ ⟨COMMAND_FIELD, VR.US, CmdValue.U16 [0x8030]⟩,
    ⟨MESSAGE_ID_BEING_RESPONDED_TO, VR.US, CmdValue.U16 [message_id]⟩,
    ⟨COMMAND_DATA_SET_TYPE, VR.US, CmdValue.U16 [0x0101]⟩,
    ⟨STATUS, VR.US, CmdValue.U16 [0x0000]⟩ ]

end Dicom

namespace Dicom

/-! ## Server accept loops and startup (`src/storescp/src/main.rs`)

The two execution models are modelled over a finite trace of accept
events.  Modelled from the spec: the per-connection handlers
`run_store_sync` and `run_store_async` (modules `store_sync` and
`store_async`, not among the provided sources) implement the same
session logic in both variants — "a single algorithm parameterized over
an abstract next-command suspension primitive ... sharing the
negotiation/command-handling logic verbatim"; an accepted connection is
therefore represented by the handler outcome it produces, identical for
both models, and only the accept loops themselves are embedded from the
source. -/

/-- One event at the server's accept loop: either the accept operation
itself fails with error report `e`, or a connection is accepted whose
handler finishes with `none` (success) or `some e` (an error report). -/
inductive AcceptEvent
  | acceptErr (e : List Char)
  | conn (handlerResult : Option (List Char))
deriving DecidableEq, Repr

/-- Embedding of the accept loop of `run_sync`
(`for stream in listener.incoming()`): an `Err` item from `incoming()`
is logged and iteration continues, and a handler error from
`run_store_sync` is logged and iteration continues.  The loop never
returns an error; the result is the log of reported errors in order. -/
def runSyncLoop : List AcceptEvent → List (List Char)
  | [] => []
  | AcceptEvent.acceptErr e :: rest => e :: runSyncLoop rest
  | AcceptEvent.conn none :: rest => runSyncLoop rest
  | AcceptEvent.conn (some e) :: rest => e :: runSyncLoop rest

/-- Embedding of the accept loop of `run_async`
(`loop { let (socket, _addr) = listener.accept().await?; ... }`): the
`?` operator propagates an accept error out of `run_async`, ending the
loop, while an error of a spawned `run_store_async` task is logged and
the loop continues.  The result is `.error e` when an accept error `e`
ends the loop, and otherwise the log of handler errors. -/
def runAsyncLoop : List AcceptEvent → Except (List Char) (List (List Char))
  | [] => Except.ok []
  | AcceptEvent.acceptErr e :: _ => Except.error e
  | AcceptEvent.conn none :: rest => runAsyncLoop rest
  | AcceptEvent.conn (some e) :: rest => (runAsyncLoop rest).map (fun l => e :: l)

/-- Whether a trace of accept events contains no accept error. -/
def noAcceptErr : List AcceptEvent → Bool
  | [] => true
  | AcceptEvent.acceptErr _ :: _ => false
  | AcceptEvent.conn _ :: rest => noAcceptErr rest

/-- Outcome of running the process on given startup conditions and a
trace of accept events: either the process exits with a code, or it is
still running the accept loop having produced the given error log. -/
inductive ProcessOutcome
  | exited (code : Int)
  | running (logs : List (List Char))
deriving DecidableEq, Repr

/-- Embedding of the synchronous process (`main` with
`non_blocking = false` calling `run_sync`): output-directory creation
failure calls `std::process::exit(-2)` directly; a bind failure
propagates out of `run_sync` via `?` and `main` exits with code -2;
otherwise the accept loop runs over the trace. -/
def serverSync (dirOk bindOk : Bool) (tr : List AcceptEvent) : ProcessOutcome :=
  if dirOk then
    if bindOk then ProcessOutcome.running (runSyncLoop tr)
    else ProcessOutcome.exited (-2)
  else ProcessOutcome.exited (-2)

/-- Embedding of the asynchronous process (`main` with
`non_blocking = true` calling `run_async`): startup failures exit with
code -2 exactly as in the synchronous variant; in addition, an accept
error propagates out of `run_async` via `?` and `main` exits with code
-2. -/
def serverAsync (dirOk bindOk : Bool) (tr : List AcceptEvent) : ProcessOutcome :=
  if dirOk then
    if bindOk then
      match runAsyncLoop tr with
      | Except.ok logs => ProcessOutcome.running logs
      | Except.error _ => ProcessOutcome.exited (-2)
    else ProcessOutcome.exited (-2)
  else ProcessOutcome.exited (-2)

/-- Modelled from the spec: the association negotiation's
max-PDU-length handling lives in the association layer (the `dicom-ul`
crate), which is not among the provided sources — only the `strict` and
`max_pdu_length` options of the storescp CLI feed into it.  Per the
spec: the negotiated max PDU length is
`min(config.max_pdu_length, peer_proposed_length)`; if `strict` is set
and the peer did not propose a length ≤ `config.max_pdu_length`, the
whole negotiation is rejected (`none`) rather than silently clamping. -/
def negotiateMaxPdu (configMax peerProposed : Nat) (strict : Bool) : Option Nat :=
  if strict && decide (configMax < peerProposed) then none
  else some (min configMax peerProposed)

end Dicom

namespace Dicom

/-! ## Text validation (`src/encoding/src/text.rs`) -/

/-- The result of a text validation procedure
(`TextValidationOutcome` in `src/encoding/src/text.rs`). -/
inductive TextValidationOutcome
  | Ok
  | BadCharacters
  | NotOk
deriving DecidableEq, Repr

/-- Embedding of `validate_da`: the byte slice is `Ok` when every byte
is an ASCII digit (`b'0'` = 48 to `b'9'` = 57), `NotOk` otherwise. -/
def validate_da (text : List Nat) : TextValidationOutcome :=
  if text.all (fun c => 48 ≤ c && c ≤ 57) then
    TextValidationOutcome.Ok
  else
    TextValidationOutcome.NotOk

/-! ## Character sets and codecs (`src/encoding/src/text.rs`)

Rust strings are embedded as `List Char` and byte slices as `List Nat`
(every genuine byte value is < 256). -/

/-- The supported character sets (`SpecificCharacterSet`). -/
inductive SpecificCharacterSet
  | Default
  | IsoIr100
  | IsoIr101
  | IsoIr192
  | GB18030
deriving DecidableEq, Repr

/-- The concrete codec types behind the `TextCodec` trait objects
returned by `SpecificCharacterSet::codec`. -/
inductive TextCodecKind
  | DefaultCharacterSetCodec
  | IsoIr100CharacterSetCodec
  | IsoIr101CharacterSetCodec
  | Utf8CharacterSetCodec
  | Gb18030CharacterSetCodec
deriving DecidableEq, Repr

/-- Unicode whitespace, as Rust's `char::is_whitespace` (the Unicode
`White_Space` property), which `str::trim_end` strips from the end. -/
def isRustWhitespace (c : Char) : Bool :=
  c.toNat == 0x9 || c.toNat == 0xA || c.toNat == 0xB || c.toNat == 0xC ||
  c.toNat == 0xD || c.toNat == 0x20 || c.toNat == 0x85 || c.toNat == 0xA0 ||
  c.toNat == 0x1680 || (0x2000 ≤ c.toNat && c.toNat ≤ 0x200A) ||
  c.toNat == 0x2028 || c.toNat == 0x2029 || c.toNat == 0x202F ||
  c.toNat == 0x205F || c.toNat == 0x3000

/-- Rust's `str::trim_end`: drop trailing whitespace characters. -/
def trimEnd (s : List Char) : List Char :=
  (s.reverse.dropWhile isRustWhitespace).reverse

/-- Embedding of `SpecificCharacterSet::from_code`: match the
trailing-whitespace-trimmed identifier against the recognized codes. -/
def SpecificCharacterSet.from_code (uid : List Char) :
    Option SpecificCharacterSet :=
  let t := trimEnd uid
  if t == "Default".data || t == "ISO_IR_6".data || t == "ISO_IR 6".data then
    some SpecificCharacterSet.Default
  else if t == "ISO_IR_100".data || t == "ISO_IR 100".data then
    some SpecificCharacterSet.IsoIr100
  else if t == "ISO_IR_101".data || t == "ISO_IR 101".data then
    some SpecificCharacterSet.IsoIr101
  else if t == "ISO_IR 192".data then
    some SpecificCharacterSet.IsoIr192
  else if t == "GB18030".data then
    some SpecificCharacterSet.GB18030
  else
    none

/-- Embedding of `SpecificCharacterSet::codec`: the codec behind each
character set.  Every returned codec is a `TextCodec` trait object and
therefore provides both a `decode` and an `encode` operation. -/
def SpecificCharacterSet.codec :
    SpecificCharacterSet → Option TextCodecKind
  | SpecificCharacterSet.Default =>
      some TextCodecKind.DefaultCharacterSetCodec
  | SpecificCharacterSet.IsoIr100 =>
      some TextCodecKind.IsoIr100CharacterSetCodec
  | SpecificCharacterSet.IsoIr101 =>
      some TextCodecKind.IsoIr101CharacterSetCodec
  | SpecificCharacterSet.IsoIr192 =>
      some TextCodecKind.Utf8CharacterSetCodec
  | SpecificCharacterSet.GB18030 =>
      some TextCodecKind.Gb18030CharacterSetCodec

/-- Embedding of `decode_text_trap`: the escape marker written for one
byte the character set cannot decode — a backslash followed by the
three octal digits taken from the bit fields `c & 7`, `(c & 56) >> 3`
and `(c & 192) >> 6`, each written as an ASCII digit.  The Rust trap
returns `true`, meaning the enclosing decoder continues; this is
reflected in `decodeWithTrap` below never failing. -/
def decode_text_trap (c : Nat) : List Char :=
  let o0 := c &&& 7
  let o1 := (c &&& 56) >>> 3
  let o2 := (c &&& 192) >>> 6
  ['\\', Char.ofNat (o2 + 48), Char.ofNat (o1 + 48), Char.ofNat (o0 + 48)]

/-- Decoding with a replacement trap.  Modelled from the spec: the
byte-stream decoding loop itself belongs to the external `encoding`
crate (an external collaborator, not part of this repository's
sources); per the spec's decode-mode design, the replacing mode
consumes one decodable character at a time through the character set's
`step` function and, on a byte the character set cannot decode, emits
the trap's escape marker for that byte and continues — it never fails.
`step bs = some (ch, k)` means the head of `bs` decodes to the
character `ch`, consuming `k + 1` bytes. -/
def decodeWithTrap (step : List Nat → Option (Char × Nat)) :
    List Nat → Except (List Char) (List Char)
  | [] => Except.ok []
  | b :: rest =>
    match step (b :: rest) with
    | some (ch, k) =>
        (decodeWithTrap step (rest.drop k)).map (fun s => ch :: s)
    | none =>
        (decodeWithTrap step rest).map (fun s => decode_text_trap b ++ s)
termination_by bs => bs.length
decreasing_by
  · simp only [List.length_cons]
    have := List.length_drop k rest
    omega
  · simp

/-- The ISO-8859-1 character set step: every byte value decodes to the
character with the same code point (the `ISO_8859_1` encoding maps all
256 byte values), consuming exactly one byte. -/
def latin1Step : List Nat → Option (Char × Nat)
  | [] => none
  | b :: _ => if b < 256 then some (Char.ofNat b, 0) else none

/-- A single-byte character set accepting only ASCII bytes; a concrete
step function on which the trap fires for bytes ≥ 128. -/
def asciiStep : List Nat → Option (Char × Nat)
  | [] => none
  | b :: _ => if b < 128 then some (Char.ofNat b, 0) else none

/-- Embedding of `DefaultCharacterSetCodec::decode`: ISO-8859-1
decoding with `DecoderTrap::Call(decode_text_trap)`. -/
def defaultCodec_decode (bytes : List Nat) : Except (List Char) (List Char) :=
  decodeWithTrap latin1Step bytes

/-- Embedding of `DefaultCharacterSetCodec::encode`: ISO-8859-1
encoding with `EncoderTrap::Strict`, which fails when any character of
the text falls outside the Latin-1 repertoire (code point ≥ 256) and
otherwise maps each character to the byte with the same code point. -/
def defaultCodec_encode (text : List Char) : Except (List Char) (List Nat) :=
  if text.all (fun ch => ch.toNat < 256) then
    Except.ok (text.map Char.toNat)
  else
    Except.error "unrepresentable character".data

end Dicom

namespace Dicom

/-! ## Theorems -/

/-- C1: for every message id, the C-ECHO (verification) response carries
the request's message id in message-id-being-responded-to, the success
status code 0x0000, and the data-set-type marker 0x0101 meaning that no
dataset follows; the builder takes no session state, so this holds
regardless of prior state.  (It also carries the verification-response
command field code 0x8030.) -/
theorem cecho_response_correct (message_id : Nat) :
    getValue (create_cecho_response message_id) MESSAGE_ID_BEING_RESPONDED_TO
        = some (CmdValue.U16 [message_id]) ∧
    getValue (create_cecho_response message_id) STATUS
        = some (CmdValue.U16 [0x0000]) ∧
    getValue (create_cecho_response message_id) COMMAND_DATA_SET_TYPE
        = some (CmdValue.U16 [0x0101]) ∧
    getValue (create_cecho_response message_id) COMMAND_FIELD
        = some (CmdValue.U16 [0x8030]) := by
  refine ⟨?_, ?_, ?_, ?_⟩ <;>
    simp [getValue, create_cecho_response, List.find?,
      MESSAGE_ID_BEING_RESPONDED_TO, STATUS, COMMAND_DATA_SET_TYPE,
      COMMAND_FIELD]

/-- C2: for every message id, SOP class UID and SOP instance UID, the
C-STORE success response carries the storage-response command field code
0x8001, echoes the message id and both UIDs verbatim, carries success
status 0x0000, and its data-set-type marker is 0x0101, meaning that no
dataset (payload) follows. -/
theorem cstore_response_correct (message_id : Nat)
    (sop_class_uid sop_instance_uid : List Char) :
    getValue (create_cstore_response message_id sop_class_uid sop_instance_uid)
        COMMAND_FIELD = some (CmdValue.U16 [0x8001]) ∧
    getValue (create_cstore_response message_id sop_class_uid sop_instance_uid)
        MESSAGE_ID_BEING_RESPONDED_TO = some (CmdValue.U16 [message_id]) ∧
    getValue (create_cstore_response message_id sop_class_uid sop_instance_uid)
        AFFECTED_SOP_CLASS_UID = some (CmdValue.Str sop_class_uid) ∧
    getValue (create_cstore_response message_id sop_class_uid sop_instance_uid)
        AFFECTED_SOP_INSTANCE_UID = some (CmdValue.Str sop_instance_uid) ∧
    getValue (create_cstore_response message_id sop_class_uid sop_instance_uid)
        STATUS = some (CmdValue.U16 [0x0000]) ∧
    getValue (create_cstore_response message_id sop_class_uid sop_instance_uid)
        COMMAND_DATA_SET_TYPE = some (CmdValue.U16 [0x0101]) := by
  refine ⟨?_, ?_, ?_, ?_, ?_, ?_⟩ <;>
    simp [getValue, create_cstore_response, List.find?,
      MESSAGE_ID_BEING_RESPONDED_TO, STATUS, COMMAND_DATA_SET_TYPE,
      COMMAND_FIELD, AFFECTED_SOP_CLASS_UID, AFFECTED_SOP_INSTANCE_UID]

/-- C10: `validate_da` returns `Ok` exactly when every byte is an ASCII
decimal digit; it never returns `BadCharacters`, and the empty slice
validates as `Ok`. -/
theorem validate_da_correct :
    (∀ text : List Nat,
      validate_da text = TextValidationOutcome.Ok ↔
        ∀ c ∈ text, 48 ≤ c ∧ c ≤ 57) ∧
    (∀ text : List Nat,
      validate_da text = TextValidationOutcome.Ok ∨
      validate_da text = TextValidationOutcome.NotOk) ∧
    validate_da [] = TextValidationOutcome.Ok := by
  refine ⟨?_, ?_, by decide⟩
  · intro text
    by_cases h : text.all (fun c => 48 ≤ c && c ≤ 57)
    · simp only [validate_da, h, if_true, true_iff]
      intro c hc
      have := List.all_eq_true.mp h c hc
      simpa using this
    · simp only [validate_da, h, if_false]
      constructor
      · intro hcontra; exact absurd hcontra (by simp)
      · intro hall
        exact absurd (List.all_eq_true.mpr (fun c hc => by simpa using hall c hc)) h
  · intro text
    by_cases h : text.all (fun c => 48 ≤ c && c ≤ 57)
    · left; simp [validate_da, h]
    · right; simp [validate_da, h]

set_option maxRecDepth 8192 in
/-- The escape marker of `decode_text_trap` spelt with the three octal
digits of the byte's value, checked for every byte value. -/
theorem decode_text_trap_shape :
    ∀ c : Fin 256,
      decode_text_trap c.val
        = ['\\', Char.ofNat (c.val / 64 + 48), Char.ofNat (c.val / 8 % 8 + 48),
           Char.ofNat (c.val % 8 + 48)] := by
  decide

/-- Helper for `decodeWithTrap_ok`: success for byte sequences of
bounded length, by induction on the bound. -/
theorem decodeWithTrap_ok_aux (step : List Nat → Option (Char × Nat)) :
    ∀ (n : Nat) (bytes : List Nat), bytes.length ≤ n →
      ∃ s, decodeWithTrap step bytes = Except.ok s := by
  intro n
  induction n with
  | zero =>
    intro bytes hlen
    match bytes with
    | [] => exact ⟨[], by rw [decodeWithTrap]⟩
  | succ n ih =>
    intro bytes hlen
    match bytes with
    | [] => exact ⟨[], by rw [decodeWithTrap]⟩
    | b :: rest =>
      have hrest : rest.length ≤ n := by
        simp only [List.length_cons] at hlen
        omega
      match hstep : step (b :: rest) with
      | some (ch, k) =>
        have hdrop : (rest.drop k).length ≤ n := by
          have := List.length_drop k rest
          omega
        obtain ⟨s, hs⟩ := ih (rest.drop k) hdrop
        refine ⟨ch :: s, ?_⟩
        rw [decodeWithTrap, hstep]
        show Except.map (fun s => ch :: s) (decodeWithTrap step (rest.drop k))
          = Except.ok (ch :: s)
        rw [hs]
        rfl
      | none =>
        obtain ⟨s, hs⟩ := ih rest hrest
        refine ⟨decode_text_trap b ++ s, ?_⟩
        rw [decodeWithTrap, hstep]
        show Except.map (fun s => decode_text_trap b ++ s) (decodeWithTrap step rest)
          = Except.ok (decode_text_trap b ++ s)
        rw [hs]
        rfl

/-- Decoding with a replacement trap always succeeds, whatever the
character set's step function does. -/
theorem decodeWithTrap_ok (step : List Nat → Option (Char × Nat)) :
    ∀ bytes : List Nat, ∃ s, decodeWithTrap step bytes = Except.ok s :=
  fun bytes => decodeWithTrap_ok_aux step bytes.length bytes le_rfl

/-- C7: replacing decode never fails — for every character-set step
function and every byte sequence, `decodeWithTrap` returns `Except.ok` —
and every byte the character set cannot decode is substituted in the
output by the deterministic escape marker of `decode_text_trap`: a
backslash followed by the three octal digits of the byte's value. -/
theorem decode_trap_never_fails :
    (∀ (step : List Nat → Option (Char × Nat)) (bytes : List Nat),
        ∃ s, decodeWithTrap step bytes = Except.ok s) ∧
    (∀ c : Nat, c < 256 →
        decode_text_trap c
          = ['\\', Char.ofNat (c / 64 + 48), Char.ofNat (c / 8 % 8 + 48),
             Char.ofNat (c % 8 + 48)] ∧
        64 * (c / 64) + 8 * (c / 8 % 8) + c % 8 = c) ∧
    (∀ (step : List Nat → Option (Char × Nat)) (b : Nat) (rest : List Nat),
        step (b :: rest) = none →
        decodeWithTrap step (b :: rest)
          = (decodeWithTrap step rest).map
              (fun s => decode_text_trap b ++ s)) := by
  refine ⟨decodeWithTrap_ok, ?_, ?_⟩
  · intro c hc
    refine ⟨decode_text_trap_shape ⟨c, hc⟩, by omega⟩
  · intro step b rest hstep
    rw [decodeWithTrap, hstep]

/-- Witness for `decode_trap_never_fails`, exercised on the ASCII-only
step function with the invalid byte 200 (escape marker `\310`). -/
theorem decode_trap_never_fails_witness :
    (∃ s, decodeWithTrap asciiStep [72, 200] = Except.ok s) ∧
    (decode_text_trap 200
        = ['\\', Char.ofNat (200 / 64 + 48), Char.ofNat (200 / 8 % 8 + 48),
           Char.ofNat (200 % 8 + 48)] ∧
      64 * (200 / 64) + 8 * (200 / 8 % 8) + 200 % 8 = 200) ∧
    decodeWithTrap asciiStep [200]
      = (decodeWithTrap asciiStep []).map (fun s => decode_text_trap 200 ++ s) :=
  ⟨decode_trap_never_fails.1 asciiStep [72, 200],
    decode_trap_never_fails.2.1 200 (by decide),
    decode_trap_never_fails.2.2 asciiStep 200 [] (by decide)⟩

/-- C8: every character-set identifier recognized by
`SpecificCharacterSet::from_code` has a codec: the lookup through
`SpecificCharacterSet::codec` returns `some` capability (a `TextCodec`
providing both decode and encode) for every recognized character
set. -/
theorem from_code_codec_correct (uid : List Char) (cs : SpecificCharacterSet)
    (h : SpecificCharacterSet.from_code uid = some cs) :
    ∃ k, SpecificCharacterSet.codec cs = some k := by
  cases cs <;> exact ⟨_, rfl⟩

/-- Witness for `from_code_codec_correct` at the identifier
`ISO_IR 100` (with a trailing space, which `from_code` trims). -/
theorem from_code_codec_correct_witness :
    SpecificCharacterSet.from_code ("ISO_IR 100 ".data)
      = some SpecificCharacterSet.IsoIr100 ∧
    ∃ k, SpecificCharacterSet.codec SpecificCharacterSet.IsoIr100 = some k :=
  ⟨by decide,
    from_code_codec_correct ("ISO_IR 100 ".data) SpecificCharacterSet.IsoIr100
      (by decide)⟩

/-- Decoding the Latin-1 bytes of an all-Latin-1 character list through
the default codec recovers the characters. -/
theorem defaultCodec_decode_map (text : List Char)
    (h : ∀ c ∈ text, c.toNat < 256) :
    decodeWithTrap latin1Step (text.map Char.toNat) = Except.ok text := by
  induction text with
  | nil => simp only [List.map_nil]; rw [decodeWithTrap]
  | cons c rest ih =>
    have hc : c.toNat < 256 := h c (by simp)
    have hrest := ih (fun x hx => h x (by simp [hx]))
    simp only [List.map_cons]
    rw [decodeWithTrap]
    simp only [latin1Step, if_pos hc]
    rw [List.drop_zero, hrest]
    simp [Except.map, Char.ofNat_toNat]

/-- C9: for every string whose characters all lie in the Latin-1
repertoire, encoding through the default character set codec succeeds
and produces the characters' code points as bytes, and decoding those
bytes returns exactly the original string. -/
theorem latin1_roundtrip (text : List Char)
    (h : ∀ c ∈ text, c.toNat < 256) :
    defaultCodec_encode text = Except.ok (text.map Char.toNat) ∧
    defaultCodec_decode (text.map Char.toNat) = Except.ok text := by
  constructor
  · have : text.all (fun ch => ch.toNat < 256) = true := by
      rw [List.all_eq_true]
      intro c hc
      simpa using h c hc
    simp [defaultCodec_encode, this]
  · exact defaultCodec_decode_map text h

/-- Witness for `latin1_roundtrip` on the Latin-1 string `Çã0`. -/
theorem latin1_roundtrip_witness :
    (∀ c ∈ ("Çã0".data), c.toNat < 256) ∧
    defaultCodec_encode ("Çã0".data)
      = Except.ok (("Çã0".data).map Char.toNat) ∧
    defaultCodec_decode (("Çã0".data).map Char.toNat)
      = Except.ok ("Çã0".data) :=
  ⟨by decide, latin1_roundtrip ("Çã0".data) (by decide)⟩

/-- On a trace without accept errors the asynchronous accept loop never
ends in an error, and logs exactly what the synchronous loop logs. -/
theorem runAsyncLoop_eq_of_noAcceptErr :
    ∀ tr : List AcceptEvent, noAcceptErr tr = true →
      runAsyncLoop tr = Except.ok (runSyncLoop tr) := by
  intro tr
  induction tr with
  | nil => intro _; rfl
  | cons ev rest ih =>
    intro h
    match ev with
    | AcceptEvent.acceptErr e => simp [noAcceptErr] at h
    | AcceptEvent.conn none =>
      simp only [runAsyncLoop, runSyncLoop]
      exact ih (by simpa [noAcceptErr] using h)
    | AcceptEvent.conn (some e) =>
      simp only [runAsyncLoop, runSyncLoop]
      rw [ih (by simpa [noAcceptErr] using h)]
      rfl

/-- C3 counterexample: in the cooperative execution model an accept
error does terminate the accept loop (the following event is never
processed) and the process exits with code -2, contradicting the claim
that in both execution models accept-loop errors never terminate the
loop or the process. -/
theorem async_accept_error_terminates :
    runAsyncLoop
        [AcceptEvent.acceptErr ['e'], AcceptEvent.conn none]
      = Except.error ['e'] ∧
    serverAsync true true [AcceptEvent.acceptErr ['e']]
      = ProcessOutcome.exited (-2) ∧
    ProcessOutcome.exited (-2)
      ≠ ProcessOutcome.running (runSyncLoop [AcceptEvent.acceptErr ['e']]) := by
  refine ⟨rfl, rfl, by decide⟩

/-- C3 amended: in the blocking model both accept errors and handler
errors are logged and the loop continues over the whole trace, never
terminating the process; in the cooperative model a handler error is
logged and the loop continues, but an accept error terminates the loop
and the process exits with code -2. -/
theorem accept_loop_error_handling :
    (∀ tr : List AcceptEvent,
        serverSync true true tr = ProcessOutcome.running (runSyncLoop tr)) ∧
    (∀ tr : List AcceptEvent,
        runSyncLoop tr = tr.filterMap (fun ev =>
          match ev with
          | AcceptEvent.acceptErr e => some e
          | AcceptEvent.conn (some e) => some e
          | AcceptEvent.conn none => none)) ∧
    (∀ (e : List Char) (rest : List AcceptEvent),
        runAsyncLoop (AcceptEvent.conn (some e) :: rest)
          = (runAsyncLoop rest).map (fun l => e :: l)) ∧
    (∀ (e : List Char) (rest : List AcceptEvent),
        runAsyncLoop (AcceptEvent.acceptErr e :: rest) = Except.error e) ∧
    (∀ (e : List Char) (rest : List AcceptEvent),
        serverAsync true true (AcceptEvent.acceptErr e :: rest)
          = ProcessOutcome.exited (-2)) := by
  refine ⟨fun tr => rfl, ?_, fun e rest => rfl, fun e rest => rfl,
    fun e rest => rfl⟩
  intro tr
  induction tr with
  | nil => rfl
  | cons ev rest ih =>
    match ev with
    | AcceptEvent.acceptErr e =>
      simp only [runSyncLoop, List.filterMap_cons, ih]
    | AcceptEvent.conn none =>
      simp only [runSyncLoop, List.filterMap_cons, ih]
    | AcceptEvent.conn (some e) =>
      simp only [runSyncLoop, List.filterMap_cons, ih]

/-- C4 counterexample: on a trace consisting of a single accept error,
with identical configuration, the blocking variant logs the error and
keeps running while the cooperative variant terminates the process with
code -2, so the two execution models are not behaviorally identical. -/
theorem sync_async_divergence :
    serverSync true true [AcceptEvent.acceptErr ['e']]
      = ProcessOutcome.running [['e']] ∧
    serverAsync true true [AcceptEvent.acceptErr ['e']]
      = ProcessOutcome.exited (-2) ∧
    (ProcessOutcome.running [['e']] : ProcessOutcome)
      ≠ ProcessOutcome.exited (-2) := by
  refine ⟨rfl, rfl, by decide⟩

/-- C4 amended: for the same startup conditions and the same event
trace, the two execution models produce identical process outcomes
whenever the trace contains no accept error; they diverge exactly on
accept errors, which the blocking model survives and the cooperative
model turns into process termination. -/
theorem sync_async_equiv_no_accept_error (dirOk bindOk : Bool)
    (tr : List AcceptEvent) (h : noAcceptErr tr = true) :
    serverAsync dirOk bindOk tr = serverSync dirOk bindOk tr := by
  cases dirOk with
  | false => rfl
  | true =>
    cases bindOk with
    | false => rfl
    | true =>
      simp only [serverAsync, serverSync, if_true]
      rw [runAsyncLoop_eq_of_noAcceptErr tr h]

/-- Witness for the C4 amended theorem at a concrete trace containing a
successful connection and a failed handler but no accept error. -/
theorem sync_async_equiv_no_accept_error_witness :
    noAcceptErr [AcceptEvent.conn (some ['x']), AcceptEvent.conn none] = true ∧
    serverAsync true true [AcceptEvent.conn (some ['x']), AcceptEvent.conn none]
      = serverSync true true [AcceptEvent.conn (some ['x']), AcceptEvent.conn none] :=
  ⟨by decide,
    sync_async_equiv_no_accept_error true true
      [AcceptEvent.conn (some ['x']), AcceptEvent.conn none] (by decide)⟩

/-- C5: if the output directory cannot be created or the listening
socket cannot be bound, both process variants exit with the
distinguished non-zero code -2, for every trace of accept events —
so no connection is ever served and the failure is never retried. -/
theorem startup_failure_fatal (dirOk bindOk : Bool)
    (tr tr2 : List AcceptEvent) (h : dirOk = false ∨ bindOk = false) :
    serverSync dirOk bindOk tr = ProcessOutcome.exited (-2) ∧
    serverAsync dirOk bindOk tr2 = ProcessOutcome.exited (-2) ∧
    (-2 : Int) ≠ 0 := by
  rcases h with h | h <;> subst h
  · exact ⟨rfl, rfl, by decide⟩
  · cases dirOk <;> exact ⟨rfl, rfl, by decide⟩

/-- Witness for `startup_failure_fatal` at a failed bind with a
non-empty pending trace. -/
theorem startup_failure_fatal_witness :
    (true = false ∨ false = false) ∧
    serverSync true false [AcceptEvent.conn none] = ProcessOutcome.exited (-2) ∧
    serverAsync true false [AcceptEvent.conn none] = ProcessOutcome.exited (-2) ∧
    (-2 : Int) ≠ 0 :=
  ⟨Or.inr rfl,
    startup_failure_fatal true false
      [AcceptEvent.conn none] [AcceptEvent.conn none] (Or.inr rfl)⟩

/-- C6: the negotiated max PDU length is the minimum of the configured
bound and the peer's proposal; when `strict` is set and the peer's
proposal exceeds the configured bound the negotiation is rejected, and
when `strict` is unset in that situation the negotiated length is the
configured bound. -/
theorem negotiate_max_pdu_correct (configMax peerProposed : Nat) :
    (∀ strict : Bool, peerProposed ≤ configMax →
        negotiateMaxPdu configMax peerProposed strict
          = some (min configMax peerProposed)) ∧
    (negotiateMaxPdu configMax peerProposed false
        = some (min configMax peerProposed)) ∧
    (configMax < peerProposed →
        negotiateMaxPdu configMax peerProposed true = none) ∧
    (configMax < peerProposed →
        negotiateMaxPdu configMax peerProposed false = some configMax) := by
  refine ⟨?_, ?_, ?_, ?_⟩
  · intro strict hle
    simp [negotiateMaxPdu, Nat.not_lt.mpr hle]
  · simp [negotiateMaxPdu]
  · intro hlt
    simp [negotiateMaxPdu, hlt]
  · intro hlt
    simp [negotiateMaxPdu, Nat.min_eq_left (Nat.le_of_lt hlt)]

/-- Witness for `negotiate_max_pdu_correct` at the default configured
bound 16384 against peer proposals 20000 (exceeding) and 1000
(within). -/
theorem negotiate_max_pdu_witness :
    (16384 < 20000 ∧
      negotiateMaxPdu 16384 20000 true = none ∧
      negotiateMaxPdu 16384 20000 false = some 16384) ∧
    (1000 ≤ 16384 ∧
      negotiateMaxPdu 16384 1000 true = some (min 16384 1000)) :=
  ⟨⟨by decide,
      (negotiate_max_pdu_correct 16384 20000).2.2.1 (by decide),
      (negotiate_max_pdu_correct 16384 20000).2.2.2 (by decide)⟩,
    ⟨by decide,
      (negotiate_max_pdu_correct 16384 1000).1 true (by decide)⟩⟩

end Dicom
